import Mathlib

/- Verification development for the specbridge spectrometer bridge.

   The program bridges a USB spectrometer to network clients through a text
   SCPI control plane (AseqSCPIServer.cpp) and a binary waveform data plane
   (WaveformServerThread). This file gives a shallow embedding of the parts
   of the program the verified properties talk about:

   - the shared acquisition state (globals g_triggerArmed, g_triggerOneShot)
     and the SCPI acquisition commands that mutate it;
   - one pass of the waveform streamer while loop, including the events it
     performs in program order (lock, trigger, fetch, one-shot clear, unlock,
     network send) and the flattened frame it streams;
   - the per-pixel reply loops of the WAVELENGTHS / FLATCAL / IRRCAL queries;
   - the calibration blob parser ReadCalData with its helpers explode and
     Trim, and the libc conversions atof / stod used by the parser and the
     EXPOSURE command handler;
   - a small interleaving semantics for the two threads sharing g_mutex.

   Machine floats: raw pixels are uint16 counts; the cast to 32-bit float in
   the streamer is exact for all 16-bit values, so pixels are modelled by
   their natural-number values. Vector reads by operator with no bounds check
   are modelled with Option, where none stands for an out-of-range access
   (undefined behavior in the original program). -/

/-- Global g_numPixels: the number of spectral pixels, fixed at 3653. -/
def g_numPixels : Nat := 3653

/-- Local constant framesize in WaveformServerThread: raw frame length. -/
def framesize : Nat := 3699

/-- Leading dummy-pixel region of a raw frame: the streamer reads sample
i + 32 for logical pixel i (the frame holds 32 dummy pixels, then data). -/
def dummyOffset : Nat := 32

/-- Shared acquisition state: globals g_triggerArmed and g_triggerOneShot. -/
structure AcqState where
  armed : Bool
  oneShot : Bool
deriving DecidableEq

/-- AseqSCPIServer.AcquisitionStart: g_triggerArmed = true and
g_triggerOneShot = oneShot. -/
def AcquisitionStart (oneShot : Bool) (s : AcqState) : AcqState :=
  { s with armed := true, oneShot := oneShot }

/-- AseqSCPIServer.AcquisitionForceTrigger: g_triggerArmed = true only. -/
def AcquisitionForceTrigger (s : AcqState) : AcqState :=
  { s with armed := true }

/-- AseqSCPIServer.AcquisitionStop: g_triggerArmed = false only. -/
def AcquisitionStop (s : AcqState) : AcqState :=
  { s with armed := false }

/-- Observable events of one pass of the waveform streamer loop, listed in
program order. netSend records the number of bytes handed to SendLooped. -/
inductive Ev
  | sleepPoll
  | lockAcquire
  | devTrigger
  | devFetch
  | clearArmed
  | lockRelease
  | netSend (nbytes : Nat)
deriving DecidableEq

/-- Result of one pass of the WaveformServerThread while loop: the updated
shared state, the events in order, the flattened pixel values handed to the
network send (none when nothing was sent), and whether the loop exited. -/
structure IterResult where
  state : AcqState
  events : List Ev
  sent : Option (List Nat)
  exited : Bool
deriving DecidableEq

/-- The frameFlattened buffer: logical pixel i is raw sample i + 32
(frameFlattened[i] = framePixels[i+32] in the streamer; the uint16 to float
cast is exact, so the value is kept as a natural number). -/
def flattenFrame (frame : Nat → Nat) (n : Nat) : List Nat :=
  (List.range n).map fun i => frame (i + dummyOffset)

/-- One pass of the WaveformServerThread while loop. If the trigger is not
armed the thread only sleeps 1000 microseconds and continues. Otherwise,
under g_mutex it triggers an acquisition (a trigger error is only logged and
does not change control flow, so it is not a parameter) and fetches the
frame; a fetch error logs and breaks out of the loop before the one-shot
clear; on success, if g_triggerOneShot then g_triggerArmed is cleared before
the lock_guard releases g_mutex. Outside the lock the frame is flattened and
g_numPixels * sizeof(float) = 4 * n bytes are sent; a send failure breaks. -/
def waveformIter (s : AcqState) (fetchErr : Int) (frame : Nat → Nat) (n : Nat)
    (sendOk : Bool) : IterResult :=
  if s.armed = false then
    ⟨s, [.sleepPoll], none, false⟩
  else if fetchErr ≠ 0 then
    ⟨s, [.lockAcquire, .devTrigger, .devFetch, .lockRelease], none, true⟩
  else
    ⟨if s.oneShot then { s with armed := false } else s,
     [.lockAcquire, .devTrigger, .devFetch]
       ++ (if s.oneShot then [.clearArmed] else [])
       ++ [.lockRelease, .netSend (4 * n)],
     some (flattenFrame frame n),
     !sendOk⟩

/-- Conclusion of the one-shot / repeating arming property, at given inputs:
with a successful fetch, a one-shot cycle clears armed, and the clear event
sits between lockAcquire and lockRelease (before the lock is released); a
repeating cycle leaves the state untouched; AcquisitionStop is the explicit
clear. -/
def armedLifecycleAt (s : AcqState) (frame : Nat → Nat) (n : Nat)
    (sendOk : Bool) : Prop :=
  (s.oneShot = true →
      (waveformIter s 0 frame n sendOk).state.armed = false ∧
      (waveformIter s 0 frame n sendOk).events =
        [.lockAcquire, .devTrigger, .devFetch, .clearArmed,
         .lockRelease, .netSend (4 * n)])
  ∧ (s.oneShot = false →
      (waveformIter s 0 frame n sendOk).state = s ∧
      (waveformIter s 0 frame n sendOk).events =
        [.lockAcquire, .devTrigger, .devFetch, .lockRelease,
         .netSend (4 * n)])
  ∧ (∀ s2 : AcqState, (AcquisitionStop s2).armed = false)

/-- Conclusion of the frame-streaming property, at given inputs: the data
handed to the network is exactly the flattened frame (no header, no length
prefix), the flattened frame has one entry per pixel, pixel i is raw sample
i + dummyOffset, and the single network send carries exactly 4 * n bytes. -/
def frameBytesAt (s : AcqState) (frame : Nat → Nat) (n : Nat)
    (sendOk : Bool) : Prop :=
  (waveformIter s 0 frame n sendOk).sent = some (flattenFrame frame n)
  ∧ (flattenFrame frame n).length = n
  ∧ (∀ i, i < n →
      (flattenFrame frame n).get? i = some (frame (i + dummyOffset)))
  ∧ Ev.netSend (4 * n) ∈ (waveformIter s 0 frame n sendOk).events
  ∧ (∀ m, Ev.netSend m ∈ (waveformIter s 0 frame n sendOk).events →
      m = 4 * n)

/-- Conclusion of the unarmed poll-only property, at given inputs: an
unarmed pass is exactly a sleep, with no state change, no send, and no
device trigger or fetch event. -/
def unarmedPollOnlyAt (s : AcqState) (fetchErr : Int) (frame : Nat → Nat)
    (n : Nat) (sendOk : Bool) : Prop :=
  waveformIter s fetchErr frame n sendOk = ⟨s, [Ev.sleepPoll], none, false⟩
  ∧ ∀ e ∈ (waveformIter s fetchErr frame n sendOk).events,
      e ≠ Ev.devTrigger ∧ e ≠ Ev.devFetch

/-- Character for decimal digit d (snprintf emits ASCII digits 48..57). -/
def digitChar (d : Nat) : Char := Char.ofNat (48 + d % 10)

/-- Decimal digit characters of n, most significant first; fuel-based so the
definition is structural and reduces in the kernel. -/
def natDigitsAux : Nat → Nat → List Char
  | 0, _ => []
  | fuel + 1, n =>
      if n < 10 then [digitChar n]
      else natDigitsAux fuel (n / 10) ++ [digitChar (n % 10)]

/-- Decimal digit characters of n, most significant first. -/
def natDigits (n : Nat) : List Char := natDigitsAux (n + 1) n

/-- Exactly three digit characters for k < 1000, zero padded. -/
def pad3 (k : Nat) : List Char :=
  [digitChar (k / 100), digitChar (k / 10), digitChar k]

/-- Model of snprintf with format %.3f, as used by the WAVELENGTHS, FLATCAL
and IRRCAL reply loops: fixed point, exactly three digits after the decimal
point, value rounded to the nearest thousandth. -/
def fmt3 (q : Rat) : List Char :=
  let n : Int := round (q * 1000)
  let m : Nat := n.natAbs
  (if n < 0 then ['-'] else []) ++ natDigits (m / 1000) ++ '.' :: pad3 (m % 1000)

/-- Shape of a %.3f token: some point-free prefix, then a decimal point,
then exactly three digits. -/
def decimal3 (t : List Char) : Prop :=
  ∃ a d1 d2 d3, t = a ++ '.' :: [d1, d2, d3] ∧ '.' ∉ a
    ∧ d1.isDigit = true ∧ d2.isDigit = true ∧ d3.isDigit = true

/-- Splits a character list at every comma; a trailing comma yields a final
empty piece, so a comma-terminated reply of P tokens splits into P + 1
pieces whose last is empty. -/
def splitComma : List Char → List (List Char)
  | [] => [[]]
  | c :: rest =>
      if c = ',' then [] :: splitComma rest
      else
        match splitComma rest with
        | [] => [[c]]
        | t :: ts => (c :: t) :: ts

/-- The comma-terminated tokens of a reply: the split pieces minus the final
empty piece produced by the trailing comma. -/
def commaTokens (l : List Char) : List (List Char) :=
  (splitComma l).dropLast

/-- The reply loop body shared by the WAVELENGTHS, FLATCAL and IRRCAL query
handlers, starting at index i with k iterations left: append v[i] formatted
as %.3f plus a comma, for each iteration. The unchecked vector read of the
original is modelled with get?; none stands for an out-of-bounds access
(undefined behavior in the original program). -/
def replyFrom (v : List Rat) (i : Nat) : Nat → Option (List Char)
  | 0 => some []
  | k + 1 => do
      let q ← v.get? i
      let rest ← replyFrom v (i + 1) k
      pure (fmt3 q ++ ',' :: rest)

/-- The full reply of a per-pixel query: the loop for i in 0..n-1 over the
calibration vector v (the source always iterates g_numPixels times,
whatever the vector length). -/
def perPixelReply (v : List Rat) (n : Nat) : Option (List Char) :=
  replyFrom v 0 n

/-- Conclusion of the token-count property at given inputs: the reply loop
succeeds and returns the joined comma-terminated tokens; its tokens are
exactly the %.3f renderings of the entries in storage order; there are
exactly P of them; and each has the three-decimals shape. -/
def tokenCountAt (v : List Rat) (P : Nat) : Prop :=
  perPixelReply v P = some ((v.map fun q => fmt3 q ++ [',']).flatten)
  ∧ commaTokens ((v.map fun q => fmt3 q ++ [',']).flatten) = v.map fmt3
  ∧ (v.map fmt3).length = P
  ∧ ∀ t ∈ v.map fmt3, decimal3 t

/-- Model of C isspace (C locale): space, tab, newline, vertical tab, form
feed, carriage return. -/
def isSpaceC (c : Char) : Bool :=
  c = ' ' || c = '\t' || c = '\n' || c = '\x0b' || c = '\x0c' || c = '\r'

/-- Helper of explode: walks the characters with the pending token tmp;
a separator pushes tmp only when it is nonempty (the source drops empty
tokens), a other character is appended to tmp, and a nonempty trailing
token is pushed at the end. -/
def explodeGo (sep : Char) : List Char → List Char → List (List Char)
  | tmp, [] => if tmp = [] then [] else [tmp]
  | tmp, c :: rest =>
      if c = sep then
        if tmp = [] then explodeGo sep [] rest
        else tmp :: explodeGo sep [] rest
      else explodeGo sep (tmp ++ [c]) rest

/-- The explode helper of the source: splits a string at a separator,
dropping empty pieces. -/
def explode (s : List Char) (sep : Char) : List (List Char) :=
  explodeGo sep [] s

/-- Helper of Trim: ret is the kept prefix, tmp the pending whitespace; a
non-space character flushes tmp before itself (internal whitespace is kept),
pending trailing whitespace is dropped at the end. -/
def TrimGo : List Char → List Char → List Char → List Char
  | ret, _tmp, [] => ret
  | ret, tmp, c :: rest =>
      if isSpaceC c then TrimGo ret (tmp ++ [c]) rest
      else TrimGo (ret ++ tmp ++ [c]) [] rest

/-- The Trim helper of the source: removes whitespace from the start and the
end of a string, keeping internal whitespace. -/
def Trim (s : List Char) : List Char :=
  TrimGo [] [] (s.dropWhile fun c => isSpaceC c)

/-- Numeric value of an ASCII digit character. -/
def digitVal (c : Char) : Nat := c.toNat - 48

/-- Is an ASCII decimal digit. -/
def isDigitC (c : Char) : Bool := 48 ≤ c.toNat && c.toNat ≤ 57

/-- Value of a digit run, most significant first. -/
def digitsToNat (ds : List Char) : Nat :=
  ds.foldl (fun a c => 10 * a + digitVal c) 0

/-- Model of libc atof as used on the calibration lines: skip leading
whitespace, optional sign, integer digits, optional point and fraction
digits; no conversion yields 0. Exponent and hexadecimal forms do not occur
in calibration data and are not modelled. -/
def atof (s : List Char) : Rat :=
  let s1 := s.dropWhile fun c => isSpaceC c
  let (neg, s2) :=
    match s1 with
    | '-' :: r => (true, r)
    | '+' :: r => (false, r)
    | _ => (false, s1)
  let ip := s2.takeWhile isDigitC
  let s3 := s2.dropWhile isDigitC
  let fp :=
    match s3 with
    | '.' :: r => r.takeWhile isDigitC
    | _ => []
  let mag : Rat :=
    (digitsToNat ip : Rat) + (digitsToNat fp : Rat) / ((10 : Rat) ^ fp.length)
  if neg then -mag else mag

/-- Model of std stod as used by the EXPOSURE handler: same grammar as atof,
but none (an exception in the original) when no digit is consumed. -/
def stodQ (s : List Char) : Option Rat :=
  let s1 := s.dropWhile fun c => isSpaceC c
  let s2 :=
    match s1 with
    | '-' :: r => r
    | '+' :: r => r
    | _ => s1
  let ip := s2.takeWhile isDigitC
  let s3 := s2.dropWhile isDigitC
  let fp :=
    match s3 with
    | '.' :: r => r.takeWhile isDigitC
    | _ => []
  if ip = [] ∧ fp = [] then none else some (atof s)

/-- The calibration store: g_model, g_serial, the absolute-calibration flag,
and the global vectors g_wavelengths and g_sensorResponse that ReadCalData
appends to with push_back. -/
structure CalState where
  model : List Char
  serial : List Char
  hasAbsCal : Bool
  wavelengths : List Rat
  sensorResponse : List Rat
deriving DecidableEq

/-- Startup value of the calibration store: empty global vectors. -/
def initCalState : CalState := ⟨[], [], false, [], []⟩

/-- Reads n consecutive lines starting at index i, each converted with atof.
The source indexes the lines vector with no bounds check; none models an
out-of-range read (undefined behavior in the original program). -/
def readTable (lines : List (List Char)) (i : Nat) : Nat → Option (List Rat)
  | 0 => some []
  | k + 1 => do
      let l ← lines.get? i
      let rest ← readTable lines (i + 1) k
      pure (atof l :: rest)

/-- The parse stage of ReadCalData (the flash read is an external device
call). Splits the blob into newline-delimited lines; line 0 holds model,
abs-cal flag and serial as space-separated fields; the wavelength table is
the numPixels lines from index 12 and the sensor-response table the
numPixels lines from index 13 + numPixels; both tables are appended to the
state vectors with push_back. All line and field reads are unchecked in the
source and modelled with get?, so none stands for an out-of-range vector
access (undefined behavior); no format validation of any kind exists in the
code. The LogDebug reads of single elements are logging only and omitted. -/
def readCalData (st : CalState) (blob : List Char) (numPixels : Nat) :
    Option CalState := do
  let lines := explode blob '\n'
  let line0 ← lines.get? 0
  let firstFields := explode line0 ' '
  let f0 ← firstFields.get? 0
  let f1 ← firstFields.get? 1
  let f2 ← firstFields.get? 2
  let w ← readTable lines 12 numPixels
  let sr ← readTable lines (13 + numPixels) numPixels
  pure { model := Trim f0, serial := Trim f2,
         hasAbsCal := f1 = "c.Y".toList,
         wavelengths := st.wavelengths ++ w,
         sensorResponse := st.sensorResponse ++ sr }

/-- Outcome of the EXPOSURE command handler. -/
inductive ExpoOutcome
  | ok
  | errLogged (code : Int)
  | thrown
deriving DecidableEq

/-- Result of the EXPOSURE command handler: the shared acquisition state,
the device exposure, the reply sent to the client, the outcome. -/
structure ExpoResult where
  acq : AcqState
  devExposure : Rat
  reply : Option (List Char)
  outcome : ExpoOutcome
deriving DecidableEq

/-- The EXPOSURE branch of AseqSCPIServer OnCommand. Under g_mutex it
converts args[0] with stod, scales by 1e-10, and calls setExposure; a
nonzero device code is logged with its numeric value and no reply is ever
sent. The source reads args[0] with no emptiness check (out of bounds when
the argument is missing, undefined behavior) and does not catch the
exception stod raises on a malformed number; both are modelled by the
thrown outcome, which leaves every piece of state unchanged. -/
def onCommandExposure (args : List (List Char)) (devErr : Int) (s : AcqState)
    (devExposure : Rat) : ExpoResult :=
  match args.get? 0 with
  | none => ⟨s, devExposure, none, .thrown⟩
  | some a =>
      match stodQ a with
      | none => ⟨s, devExposure, none, .thrown⟩
      | some v =>
          let e := v * (1 / (10 : Rat) ^ 10)
          if devErr = 0 then ⟨s, e, none, .ok⟩
          else ⟨s, devExposure, none, .errLogged devErr⟩

/-- A three-line calibration blob: far fewer lines than the expected layout
of header, 11 filler lines, 3653 wavelength lines and 3653 response lines. -/
def c6blob : List Char := "A c.N S\n1\n2".toList

/-- A full-size calibration blob for the fixed pixel count 3653: a header
line followed by 7318 lines holding 1, so that every line index the parser
touches (up to 13 + 3653 + 3652 = 7318) exists. -/
def c9blob : List Char :=
  "M c.N S".toList ++ (List.replicate 7318 ('\n' :: ['1'])).flatten

/-- The line list c9blob explodes to. -/
def c9lines : List (List Char) :=
  "M c.N S".toList :: List.replicate 7318 ['1']

/-- One parsed table of c9blob: 3653 entries of atof 1. -/
def c9rep : List Rat := List.replicate g_numPixels (atof ['1'])

/-- The calibration store after parsing c9blob once from startup state. -/
def c9st1 : CalState := ⟨['M'], ['S'], false, c9rep, c9rep⟩

/-- The calibration store after parsing c9blob a second time: push_back has
appended a second copy of each table. -/
def c9st2 : CalState := ⟨['M'], ['S'], false, c9rep ++ c9rep, c9rep ++ c9rep⟩

/-- The two threads sharing g_mutex: the control-plane SCPI session and the
waveform streamer. -/
inductive Thr
  | ctrl
  | str
deriving DecidableEq

/-- Interleaving state of the two threads. lockHeld is the owner of g_mutex;
cpc is the position of the control thread inside the EXPOSURE handler (0
dispatch, 1 lock held before setExposure, 2 after setExposure before the
lock_guard returns); spc is the position of the streamer inside its loop (0
top of loop, 1 lock held before trigger, 2 after trigger before fetch, 3
after fetch, 4 after the one-shot clear, 5 lock released before send);
armed is global g_triggerArmed. -/
structure Sys where
  lockHeld : Option Thr
  cpc : Nat
  spc : Nat
  armed : Bool
deriving DecidableEq

/-- Startup interleaving state: lock free, both threads at the top,
trigger not armed. -/
def initSys : Sys := ⟨none, 0, 0, false⟩

/-- Atomic actions of the two threads. armWrite is an acquisition command
(start, stop or force-trigger), which the source performs with no lock;
ctrlLock, setExposure and ctrlUnlock are the EXPOSURE handler, whose
lock_guard spans the device call; pollSleep is the unarmed 1 ms sleep;
strLock through strUnlock are the streamer acquisition whose lock_guard
spans trigger and fetch; clearArmed is the one-shot disarm; dataSend is the
network send outside the lock. -/
inductive Label
  | armWrite (b : Bool)
  | ctrlLock
  | setExposure
  | ctrlUnlock
  | pollSleep
  | strLock
  | devTrigger
  | devFetch
  | clearArmed
  | strUnlock
  | dataSend
deriving DecidableEq

/-- One interleaved step of the system. Lock acquisition requires the lock
to be free; the one-shot clear and the direct unlock from position 3 are
the two branches of the if on g_triggerOneShot. -/
inductive Step : Sys → Label → Sys → Prop
  | armWrite (s : Sys) (b : Bool) (h : s.cpc = 0) :
      Step s (.armWrite b) { s with armed := b }
  | ctrlLock (s : Sys) (h : s.cpc = 0) (hl : s.lockHeld = none) :
      Step s .ctrlLock { s with cpc := 1, lockHeld := some .ctrl }
  | setExposure (s : Sys) (h : s.cpc = 1) :
      Step s .setExposure { s with cpc := 2 }
  | ctrlUnlock (s : Sys) (h : s.cpc = 2) :
      Step s .ctrlUnlock { s with cpc := 0, lockHeld := none }
  | pollSleep (s : Sys) (h : s.spc = 0) (ha : s.armed = false) :
      Step s .pollSleep s
  | strLock (s : Sys) (h : s.spc = 0) (ha : s.armed = true)
      (hl : s.lockHeld = none) :
      Step s .strLock { s with spc := 1, lockHeld := some .str }
  | devTrigger (s : Sys) (h : s.spc = 1) :
      Step s .devTrigger { s with spc := 2 }
  | devFetch (s : Sys) (h : s.spc = 2) :
      Step s .devFetch { s with spc := 3 }
  | clearArmed (s : Sys) (h : s.spc = 3) :
      Step s .clearArmed { s with spc := 4, armed := false }
  | strUnlockNoClear (s : Sys) (h : s.spc = 3) :
      Step s .strUnlock { s with spc := 5, lockHeld := none }
  | strUnlockAfterClear (s : Sys) (h : s.spc = 4) :
      Step s .strUnlock { s with spc := 5, lockHeld := none }
  | dataSend (s : Sys) (h : s.spc = 5) :
      Step s .dataSend { s with spc := 0 }

/-- A finite execution: a labelled path through the step relation. -/
inductive Run : Sys → List Label → Sys → Prop
  | nil (s : Sys) : Run s [] s
  | cons {s : Sys} {l : Label} {s1 : Sys} {tr : List Label} {s2 : Sys}
      (hstep : Step s l s1) (hrun : Run s1 tr s2) : Run s (l :: tr) s2

/-- Lock invariant: a thread positioned inside its critical section holds
g_mutex. -/
def SysInv (s : Sys) : Prop :=
  (s.cpc = 1 ∨ s.cpc = 2 → s.lockHeld = some .ctrl)
  ∧ (s.spc = 1 ∨ s.spc = 2 ∨ s.spc = 3 ∨ s.spc = 4 →
      s.lockHeld = some .str)

/-- A concrete execution for the witness: arm, streamer locks and triggers,
the control plane rewrites the armed flag while the acquisition is in
flight (no lock needed for that), then the fetch completes. -/
def c1Trace : List Label :=
  [.armWrite true, .strLock, .devTrigger, .armWrite true, .devFetch]

/-- Final state of c1Trace. -/
def c1Final : Sys := ⟨some .str, 0, 3, true⟩

/-- C2: in a streamer cycle with the one-shot flag set, one successful fetch
clears armed before the lock is released (the clearArmed event precedes
lockRelease in the event order); with the flag unset the cycle leaves armed
untouched, and only the explicit stop command clears it. -/
theorem c2_one_shot_disarm (s : AcqState) (frame : Nat → Nat) (n : Nat)
    (sendOk : Bool) (harm : s.armed = true) :
    armedLifecycleAt s frame n sendOk := by
  refine ⟨fun h1 => ?_, fun h0 => ?_, fun s2 => rfl⟩
  · constructor <;> simp [waveformIter, armedLifecycleAt, harm, h1]
  · constructor <;> simp [waveformIter, armedLifecycleAt, harm, h0]

/-- C2 witness: the one-shot property evaluated in the armed one-shot state
with a concrete frame. -/
theorem c2_one_shot_disarm_witness :
    (⟨true, true⟩ : AcqState).armed = true ∧
    armedLifecycleAt ⟨true, true⟩ (fun i => i) 4 true :=
  ⟨rfl, c2_one_shot_disarm ⟨true, true⟩ (fun i => i) 4 true rfl⟩

/-- C3: every streamed frame is exactly the flattened pixel sequence, one
32-bit float per pixel and nothing else, with pixel i equal to raw sample
i + dummyOffset, and the send is exactly 4 * n bytes. -/
theorem c3_frame_bytes (s : AcqState) (frame : Nat → Nat) (n : Nat)
    (sendOk : Bool) (harm : s.armed = true) :
    frameBytesAt s frame n sendOk := by
  refine ⟨?_, ?_, fun i hi => ?_, ?_, fun m hm => ?_⟩
  · cases ho : s.oneShot <;> simp [waveformIter, harm, ho]
  · simp [flattenFrame]
  · simp [flattenFrame, List.get?_eq_getElem?, List.getElem?_map,
      List.getElem?_range, hi]
  · cases ho : s.oneShot <;> simp [waveformIter, harm, ho]
  · cases ho : s.oneShot <;> simp [waveformIter, harm, ho] at hm <;> omega

/-- C3 witness: the frame-streaming property evaluated on a concrete frame
of 4 pixels. -/
theorem c3_frame_bytes_witness :
    (⟨true, false⟩ : AcqState).armed = true ∧
    frameBytesAt ⟨true, false⟩ (fun i => 2 * i) 4 true :=
  ⟨rfl, c3_frame_bytes ⟨true, false⟩ (fun i => 2 * i) 4 true rfl⟩

/-- C7: while the armed flag is false, one streamer pass is poll-and-sleep
only: no device trigger or fetch event occurs, nothing is sent and the state
is unchanged, for every possible device error code. -/
theorem c7_unarmed_no_device_io (s : AcqState) (fetchErr : Int)
    (frame : Nat → Nat) (n : Nat) (sendOk : Bool) (h : s.armed = false) :
    unarmedPollOnlyAt s fetchErr frame n sendOk := by
  constructor
  · simp [waveformIter, h]
  · intro e he
    simp [waveformIter, h] at he
    simp [he]

/-- C7 witness: the poll-only property evaluated in a concrete unarmed
state. -/
theorem c7_unarmed_no_device_io_witness :
    (⟨false, true⟩ : AcqState).armed = false ∧
    unarmedPollOnlyAt ⟨false, true⟩ (-3) (fun i => i) 4 true :=
  ⟨rfl, c7_unarmed_no_device_io ⟨false, true⟩ (-3) (fun i => i) 4 true rfl⟩

/-- C10: force-trigger and stop write only the armed flag and preserve the
one-shot flag; only start writes the one-shot flag; hence a force-trigger
issued after a one-shot start still disarms after one successful frame. -/
theorem c10_only_start_writes_one_shot (s : AcqState) (b : Bool)
    (frame : Nat → Nat) (n : Nat) (sendOk : Bool) :
    (AcquisitionForceTrigger s).oneShot = s.oneShot
    ∧ (AcquisitionForceTrigger s).armed = true
    ∧ (AcquisitionStop s).oneShot = s.oneShot
    ∧ (AcquisitionStop s).armed = false
    ∧ (AcquisitionStart b s).oneShot = b
    ∧ (AcquisitionStart b s).armed = true
    ∧ (waveformIter (AcquisitionForceTrigger (AcquisitionStart true s)) 0
        frame n sendOk).state.armed = false := by
  refine ⟨rfl, rfl, rfl, rfl, rfl, rfl, ?_⟩
  simp [AcquisitionStart, AcquisitionForceTrigger, waveformIter]

/-- Digit characters are digits. -/
theorem digitChar_isDigit (d : Nat) : (digitChar d).isDigit = true := by
  have h : d % 10 < 10 := Nat.mod_lt _ (by norm_num)
  unfold digitChar
  generalize hk : d % 10 = k
  rw [hk] at h
  interval_cases k <;> decide

/-- A digit character is neither a comma nor a point nor a minus sign. -/
theorem isDigit_ne (c : Char) (h : c.isDigit = true) :
    c ≠ ',' ∧ c ≠ '.' ∧ c ≠ '-' := by
  refine ⟨?_, ?_, ?_⟩ <;> rintro rfl <;> exact absurd h (by decide)

/-- Every character produced by natDigitsAux is a digit. -/
theorem natDigitsAux_digits :
    ∀ (fuel n : Nat) (c : Char), c ∈ natDigitsAux fuel n → c.isDigit = true := by
  intro fuel
  induction fuel with
  | zero => intro n c hc; simp [natDigitsAux] at hc
  | succ fuel ih =>
    intro n c hc
    unfold natDigitsAux at hc
    by_cases h : n < 10
    · simp [h] at hc
      subst hc
      exact digitChar_isDigit n
    · simp [h, List.mem_append] at hc
      rcases hc with hc | hc
      · exact ih _ _ hc
      · subst hc; exact digitChar_isDigit _

/-- Every character produced by natDigits is a digit. -/
theorem natDigits_digits (n : Nat) (c : Char) (h : c ∈ natDigits n) :
    c.isDigit = true :=
  natDigitsAux_digits (n + 1) n c h

/-- Every character produced by pad3 is a digit. -/
theorem pad3_digits (k : Nat) (c : Char) (h : c ∈ pad3 k) :
    c.isDigit = true := by
  simp [pad3] at h
  rcases h with h | h | h <;> subst h <;> exact digitChar_isDigit _

/-- Unfolding lemma for fmt3: sign, integer digits, point, three digits. -/
theorem fmt3_eq (q : Rat) : fmt3 q =
    (if round (q * 1000) < 0 then ['-'] else [])
      ++ natDigits ((round (q * 1000)).natAbs / 1000)
      ++ '.' :: pad3 ((round (q * 1000)).natAbs % 1000) := rfl

/-- The %.3f rendering contains no comma. -/
theorem fmt3_no_comma (q : Rat) : ',' ∉ fmt3 q := by
  rw [fmt3_eq]
  intro hmem
  rcases List.mem_append.1 hmem with hs | hp
  · rcases List.mem_append.1 hs with hsign | hd
    · by_cases hn : round (q * 1000) < 0
      · rw [if_pos hn] at hsign
        exact absurd (List.mem_singleton.1 hsign) (by decide)
      · rw [if_neg hn] at hsign
        exact absurd hsign (List.not_mem_nil _)
    · exact absurd (natDigits_digits _ _ hd) (by decide)
  · rcases List.mem_cons.1 hp with hdot | hpad
    · exact absurd hdot (by decide)
    · exact absurd (pad3_digits _ _ hpad) (by decide)

/-- Every %.3f rendering has the three-decimals token shape. -/
theorem fmt3_decimal3 (q : Rat) : decimal3 (fmt3 q) := by
  refine ⟨(if round (q * 1000) < 0 then ['-'] else [])
      ++ natDigits ((round (q * 1000)).natAbs / 1000),
    digitChar (((round (q * 1000)).natAbs % 1000) / 100),
    digitChar (((round (q * 1000)).natAbs % 1000) / 10),
    digitChar ((round (q * 1000)).natAbs % 1000),
    ?_, ?_, digitChar_isDigit _, digitChar_isDigit _, digitChar_isDigit _⟩
  · rw [fmt3_eq]
    rfl
  · intro hmem
    rcases List.mem_append.1 hmem with hsign | hd
    · by_cases hn : round (q * 1000) < 0
      · rw [if_pos hn] at hsign
        exact absurd (List.mem_singleton.1 hsign) (by decide)
      · rw [if_neg hn] at hsign
        exact absurd hsign (List.not_mem_nil _)
    · exact absurd (natDigits_digits _ _ hd) (by decide)

/-- Splitting a comma-free chunk followed by a comma peels off that chunk. -/
theorem splitComma_append (xs rest : List Char) (h : ',' ∉ xs) :
    splitComma (xs ++ ',' :: rest) = xs :: splitComma rest := by
  induction xs with
  | nil => simp [splitComma]
  | cons c xs ih =>
    rw [List.mem_cons, not_or] at h
    have hc : ¬(c = ',') := fun hcc => h.1 hcc.symm
    simp only [List.cons_append, splitComma, if_neg hc]
    rw [show xs.append (',' :: rest) = xs ++ ',' :: rest from rfl, ih h.2]

/-- Splitting the concatenation of comma-terminated comma-free tokens
recovers the tokens plus one final empty piece. -/
theorem splitComma_flatten (toks : List (List Char))
    (h : ∀ t ∈ toks, ',' ∉ t) :
    splitComma ((toks.map fun t => t ++ [',']).flatten) = toks ++ [[]] := by
  induction toks with
  | nil => simp [splitComma]
  | cons t ts ih =>
    have ht : ',' ∉ t := h t (List.mem_cons_self t ts)
    have hts : ∀ u ∈ ts, ',' ∉ u := fun u hu => h u (List.mem_cons_of_mem t hu)
    calc splitComma (((t :: ts).map fun u => u ++ [',']).flatten)
        = splitComma (t ++ ',' :: (ts.map fun u => u ++ [',']).flatten) := by
          simp
      _ = t :: splitComma ((ts.map fun u => u ++ [',']).flatten) :=
          splitComma_append _ _ ht
      _ = t :: (ts ++ [[]]) := by rw [ih hts]
      _ = (t :: ts) ++ [[]] := rfl

/-- The reply loop over a full vector succeeds and produces the
concatenation of the comma-terminated tokens, one per entry. -/
theorem replyFrom_flatten : ∀ (v w : List Rat),
    replyFrom (w ++ v) w.length v.length
      = some ((v.map fun q => fmt3 q ++ [',']).flatten) := by
  intro v
  induction v with
  | nil => intro w; simp [replyFrom]
  | cons q v ih =>
    intro w
    have h1 : (w ++ q :: v).get? w.length = some q := by
      rw [List.get?_eq_getElem?, List.getElem?_append_right (le_refl _)]
      simp
    have h2 : replyFrom (w ++ q :: v) (w.length + 1) v.length
        = some ((v.map fun p => fmt3 p ++ [',']).flatten) := by
      have h3 := ih (w ++ [q])
      rw [List.append_assoc, List.singleton_append, List.length_append,
        List.length_singleton] at h3
      exact h3
    show replyFrom (w ++ q :: v) w.length (v.length + 1) = _
    rw [replyFrom]
    rw [h1, h2]
    simp

/-- C5: for a calibration vector of P entries, the reply loop shared by the
WAVELENGTHS, FLATCAL and IRRCAL query handlers produces exactly P
comma-terminated tokens, no more, no fewer, one per pixel in storage order,
each with exactly three digits after the decimal point. -/
theorem c5_reply_token_count (v : List Rat) (P : Nat) (h : v.length = P) :
    tokenCountAt v P := by
  subst h
  refine ⟨?_, ?_, by simp, ?_⟩
  · simpa using replyFrom_flatten v []
  · have hcf : ∀ t ∈ v.map fmt3, ',' ∉ t := by
      intro t ht
      obtain ⟨q, _, rfl⟩ := List.mem_map.1 ht
      exact fmt3_no_comma q
    have hjoin := splitComma_flatten (v.map fmt3) hcf
    rw [List.map_map] at hjoin
    have hcomp : ((fun t => t ++ [',']) ∘ fmt3) = fun q => fmt3 q ++ [','] :=
      rfl
    rw [hcomp] at hjoin
    rw [commaTokens, hjoin, List.dropLast_concat]
  · intro t ht
    obtain ⟨q, _, rfl⟩ := List.mem_map.1 ht
    exact fmt3_decimal3 q

/-- C5 witness: the token-count property evaluated on a concrete vector of
two entries. -/
theorem c5_reply_token_count_witness :
    ([(1 : Rat), 5/2] : List Rat).length = 2 ∧ tokenCountAt [(1 : Rat), 5/2] 2 :=
  ⟨rfl, c5_reply_token_count [(1 : Rat), 5/2] 2 rfl⟩

/-- explodeGo walks over separator-free characters by moving them into the
pending token. -/
theorem explodeGo_no_sep (sep : Char) :
    ∀ (hd tmp rest : List Char), (∀ c ∈ hd, ¬c = sep) →
      explodeGo sep tmp (hd ++ rest) = explodeGo sep (tmp ++ hd) rest := by
  intro hd
  induction hd with
  | nil => intro tmp rest _; simp
  | cons c hd ih =>
    intro tmp rest h
    have hc : ¬c = sep := h c (List.mem_cons_self c hd)
    have hh : ∀ d ∈ hd, ¬d = sep := fun d hd2 => h d (List.mem_cons_of_mem c hd2)
    rw [List.cons_append, explodeGo, if_neg hc, ih (tmp ++ [c]) rest hh,
      List.append_assoc, List.singleton_append]

/-- explodeGo on the flattened repetition of a newline followed by 1, with a
nonempty pending token: the pending token, then one piece per repetition. -/
theorem explodeGo_replicate :
    ∀ (k : Nat) (tmp : List Char), tmp ≠ [] →
      explodeGo '\n' tmp ((List.replicate k ('\n' :: ['1'])).flatten)
        = tmp :: List.replicate k ['1'] := by
  intro k
  induction k with
  | zero => intro tmp h; simp [explodeGo, h]
  | succ k ih =>
    intro tmp h
    rw [List.replicate_succ, List.flatten_cons, List.cons_append,
      List.singleton_append, explodeGo, if_pos rfl, if_neg h, explodeGo,
      if_neg (by decide : ¬('1' : Char) = '\n'), List.nil_append,
      ih ['1'] (by simp), List.replicate_succ]

/-- c9blob explodes into its header line and 7318 lines holding 1. -/
theorem c9blob_lines : explode c9blob '\n' = c9lines := by
  rw [explode, c9blob,
    explodeGo_no_sep '\n' ("M c.N S".toList) [] _ (by decide),
    List.nil_append, explodeGo_replicate 7318 _ (by decide), c9lines]

/-- Reading any in-range table from c9lines yields copies of atof 1. -/
theorem readTable_c9lines :
    ∀ (n i : Nat), 1 ≤ i → i + n ≤ 7319 →
      readTable c9lines i n = some (List.replicate n (atof ['1'])) := by
  intro n
  induction n with
  | zero => intro i _ _; simp [readTable]
  | succ n ih =>
    intro i h1 h2
    obtain ⟨j, rfl⟩ : ∃ j, i = j + 1 := ⟨i - 1, by omega⟩
    have hline : c9lines.get? (j + 1) = some ['1'] := by
      rw [c9lines, List.get?_eq_getElem?, List.getElem?_cons_succ]
      exact List.getElem?_replicate_of_lt (by omega)
    rw [readTable]
    rw [hline, ih (j + 1 + 1) (by omega) (by omega)]
    simp [List.replicate_succ]

/-- Parsing c9blob once from the startup state fills each global vector with
3653 entries. -/
theorem c9_run1 : readCalData initCalState c9blob g_numPixels = some c9st1 := by
  have hw : readTable c9lines 12 g_numPixels = some c9rep :=
    readTable_c9lines g_numPixels 12 (by omega) (by norm_num [g_numPixels])
  have hs : readTable c9lines (13 + g_numPixels) g_numPixels = some c9rep :=
    readTable_c9lines g_numPixels (13 + g_numPixels) (by norm_num [g_numPixels])
      (by norm_num [g_numPixels])
  simp only [readCalData, c9blob_lines]
  rw [show c9lines.get? 0 = some ("M c.N S".toList) from rfl]
  simp only [hw, hs, Option.bind_some]
  rfl

/-- Parsing c9blob a second time appends a second copy of each table. -/
theorem c9_run2 : readCalData c9st1 c9blob g_numPixels = some c9st2 := by
  have hw : readTable c9lines 12 g_numPixels = some c9rep :=
    readTable_c9lines g_numPixels 12 (by omega) (by norm_num [g_numPixels])
  have hs : readTable c9lines (13 + g_numPixels) g_numPixels = some c9rep :=
    readTable_c9lines g_numPixels (13 + g_numPixels) (by norm_num [g_numPixels])
      (by norm_num [g_numPixels])
  simp only [readCalData, c9blob_lines]
  rw [show c9lines.get? 0 = some ("M c.N S".toList) from rfl]
  simp only [hw, hs, Option.bind_some]
  rfl

/-- C9 counterexample: parsing the identical full-size blob twice does not
yield the same wavelength vector as parsing it once; push_back appends, so
the second parse doubles the vector instead of reproducing it. -/
theorem c9_counterexample :
    ((readCalData initCalState c9blob g_numPixels).bind fun st =>
        readCalData st c9blob g_numPixels).map CalState.wavelengths
      ≠ (readCalData initCalState c9blob g_numPixels).map
          CalState.wavelengths := by
  intro h
  rw [c9_run1] at h
  rw [Option.some_bind'] at h
  rw [c9_run2] at h
  rw [Option.map_some', Option.map_some'] at h
  have hlen := congrArg List.length (Option.some.inj h)
  rw [show c9st2.wavelengths = c9rep ++ c9rep from rfl,
    show c9st1.wavelengths = c9rep from rfl, List.length_append,
    show c9rep.length = g_numPixels from List.length_replicate _ _] at hlen
  exact absurd hlen (by decide)

/-- C9 as amended: a single parse from the startup state is a pure function
of the blob, but the parse appends to the global vectors instead of
replacing them, so parsing the identical blob a second time succeeds and
yields each vector concatenated with itself (doubled length), not the same
vectors. -/
theorem c9_parse_appends (blob : List Char) (P : Nat) (st1 : CalState)
    (h : readCalData initCalState blob P = some st1) :
    ∃ st2, readCalData st1 blob P = some st2
      ∧ st2.wavelengths = st1.wavelengths ++ st1.wavelengths
      ∧ st2.sensorResponse = st1.sensorResponse ++ st1.sensorResponse := by
  simp only [readCalData, Option.bind_eq_bind, Option.bind_eq_some,
    Option.pure_def, Option.some.injEq] at h
  obtain ⟨line0, h0, f0, hf0, f1, hf1, f2, hf2, w, hw, sr, hsr, hst⟩ := h
  subst hst
  refine ⟨⟨Trim f0, Trim f2, f1 = "c.Y".toList,
    (initCalState.wavelengths ++ w) ++ w,
    (initCalState.sensorResponse ++ sr) ++ sr⟩, ?_,
    by simp [initCalState], by simp [initCalState]⟩
  simp only [readCalData, Option.bind_eq_bind, h0, hf0, hf1, hf2, hw, hsr,
    Option.some_bind, Option.pure_def]

/-- C9 witness for the amended statement: applied to the concrete full-size
blob, whose first parse is evaluated by c9_run1. -/
theorem c9_parse_appends_witness :
    ∃ st2, readCalData c9st1 c9blob g_numPixels = some st2
      ∧ st2.wavelengths = c9st1.wavelengths ++ c9st1.wavelengths
      ∧ st2.sensorResponse = c9st1.sensorResponse ++ c9st1.sensorResponse :=
  c9_parse_appends c9blob g_numPixels c9st1 c9_run1

/-- C6: on a blob with fewer lines than the fixed layout expects, the parser
reads the lines vector out of range (modelled none) instead of failing with
a format-validation error; no CalFormatError or any other validation path
exists anywhere in the code. -/
theorem c6_short_blob_oob :
    readCalData initCalState c6blob g_numPixels = none := by rfl

/-- C4: with the irradiance-response vector absent (empty, as ReadCalData
never fills it; its TODO comment leaves the irradiance table unread), the
IRRCAL query loop reads the empty vector out of range (modelled none) for
the fixed pixel count, rather than returning empty output. -/
theorem c4_irrcal_oob : perPixelReply ([] : List Rat) g_numPixels = none := by
  rfl

/-- C8: evaluation of the EXPOSURE handler at the failing inputs. A
malformed numeric argument makes stod raise an exception the handler does
not catch, and a missing argument is an out-of-bounds args read (undefined
behavior), so the failure is not contained to the command; the shared
acquisition state and device exposure are left unchanged in both cases. For
a well-formed argument with a failing device call, the numeric code is
logged and no reply is sent. -/
theorem c8_malformed_exposure :
    onCommandExposure ["abc".toList] 0 ⟨false, false⟩ 12500
      = ⟨⟨false, false⟩, 12500, none, .thrown⟩
  ∧ onCommandExposure [] 0 ⟨true, true⟩ 12500
      = ⟨⟨true, true⟩, 12500, none, .thrown⟩
  ∧ onCommandExposure ["1250000".toList] (-3) ⟨false, false⟩ 12500
      = ⟨⟨false, false⟩, 12500, none, .errLogged (-3)⟩ := by
  refine ⟨by decide, by decide, by decide⟩

/-- Each step preserves the lock invariant. -/
theorem stepInv {s : Sys} {l : Label} {s1 : Sys} (h : Step s l s1)
    (hI : SysInv s) : SysInv s1 := by
  cases h with
  | armWrite b hc => exact hI
  | ctrlLock hc hl =>
    refine ⟨fun _ => rfl, fun hsp => ?_⟩
    have h2 := hI.2 hsp
    rw [hl] at h2
    exact absurd h2 (by simp)
  | setExposure hc =>
    exact ⟨fun _ => hI.1 (Or.inl hc), fun hsp => hI.2 hsp⟩
  | ctrlUnlock hc =>
    refine ⟨fun hc2 => ?_, fun hsp => ?_⟩
    · rcases hc2 with h2 | h2 <;> simp at h2
    · have ha := hI.1 (Or.inr hc)
      have hb := hI.2 hsp
      rw [ha] at hb
      exact absurd hb (by simp)
  | pollSleep hc ha => exact hI
  | strLock hc ha hl =>
    refine ⟨fun hc2 => ?_, fun _ => rfl⟩
    have h2 := hI.1 hc2
    rw [hl] at h2
    exact absurd h2 (by simp)
  | devTrigger hc =>
    exact ⟨fun hc2 => hI.1 hc2, fun _ => hI.2 (Or.inl hc)⟩
  | devFetch hc =>
    exact ⟨fun hc2 => hI.1 hc2, fun _ => hI.2 (Or.inr (Or.inl hc))⟩
  | clearArmed hc =>
    exact ⟨fun hc2 => hI.1 hc2, fun _ => hI.2 (Or.inr (Or.inr (Or.inl hc)))⟩
  | strUnlockNoClear hc =>
    refine ⟨fun hc2 => ?_, fun hsp => ?_⟩
    · have ha := hI.1 hc2
      have hb := hI.2 (Or.inr (Or.inr (Or.inl hc)))
      rw [ha] at hb
      exact absurd hb (by simp)
    · rcases hsp with h2 | h2 | h2 | h2 <;> simp at h2
  | strUnlockAfterClear hc =>
    refine ⟨fun hc2 => ?_, fun hsp => ?_⟩
    · have ha := hI.1 hc2
      have hb := hI.2 (Or.inr (Or.inr (Or.inr hc)))
      rw [ha] at hb
      exact absurd hb (by simp)
    · rcases hsp with h2 | h2 | h2 | h2 <;> simp at h2
  | dataSend hc =>
    refine ⟨fun hc2 => hI.1 hc2, fun hsp => ?_⟩
    rcases hsp with h2 | h2 | h2 | h2 <;> simp at h2

/-- A run preserves the lock invariant. -/
theorem runInv : ∀ {s : Sys} {tr : List Label} {s2 : Sys},
    Run s tr s2 → SysInv s → SysInv s2 := by
  intro s tr s2 h
  induction h with
  | nil s => exact id
  | cons hstep hrun ih => exact fun hI => ih (stepInv hstep hI)

/-- A run over an appended trace splits at the seam. -/
theorem run_append_split : ∀ {a b : List Label} {s s2 : Sys},
    Run s (a ++ b) s2 → ∃ m, Run s a m ∧ Run m b s2 := by
  intro a
  induction a with
  | nil => intro b s s2 h; exact ⟨s, Run.nil s, h⟩
  | cons x a ih =>
    intro b s s2 h
    cases h with
    | cons hstep hrun =>
      obtain ⟨m, h1, h2⟩ := ih hrun
      exact ⟨m, Run.cons hstep h1, h2⟩

/-- While the streamer sits between its trigger and its fetch, the only
steps any thread can take without a fetch are unlocked armed-flag writes:
the streamer position stays at 2 and no setExposure can occur. -/
theorem run_stay2 : ∀ {tr : List Label} {s s2 : Sys},
    Run s tr s2 → SysInv s → s.spc = 2 → Label.devFetch ∉ tr →
      s2.spc = 2 ∧ Label.setExposure ∉ tr := by
  intro tr
  induction tr with
  | nil =>
    intro s s2 h hI h2 hf
    cases h
    exact ⟨h2, by simp⟩
  | cons l tr ih =>
    intro s s2 h hI h2 hf
    rw [List.mem_cons, not_or] at hf
    cases h with
    | cons hstep hrun =>
      cases hstep with
      | armWrite b hc =>
        have hres := ih hrun (stepInv (Step.armWrite _ b hc) hI) h2 hf.2
        refine ⟨hres.1, ?_⟩
        rw [List.mem_cons, not_or]
        exact ⟨by simp, hres.2⟩
      | ctrlLock hc hl =>
        have hb := hI.2 (Or.inr (Or.inl h2))
        rw [hl] at hb
        exact absurd hb (by simp)
      | setExposure hc =>
        have ha := hI.1 (Or.inl hc)
        have hb := hI.2 (Or.inr (Or.inl h2))
        rw [ha] at hb
        exact absurd hb (by simp)
      | ctrlUnlock hc =>
        have ha := hI.1 (Or.inr hc)
        have hb := hI.2 (Or.inr (Or.inl h2))
        rw [ha] at hb
        exact absurd hb (by simp)
      | pollSleep hc ha => omega
      | strLock hc ha hl => omega
      | devTrigger hc => omega
      | devFetch hc => exact absurd rfl hf.1
      | clearArmed hc => omega
      | strUnlockNoClear hc => omega
      | strUnlockAfterClear hc => omega
      | dataSend hc => omega

/-- C1: in every execution from startup, while an acquisition is in flight
(between a devTrigger and the next streamer fetch) no setExposure can
occur: the lock spanning trigger and fetch serializes the EXPOSURE device
call entirely before the trigger or entirely after the fetch. Moreover a
second trigger cannot occur before the fetch of the first, so at most one
acquisition is in flight at a time. -/
theorem c1_lock_serializes {tr : List Label} {sf : Sys}
    (hrun : Run initSys tr sf) :
    (∀ pre mid post,
        tr = pre ++ Label.devTrigger :: (mid ++ Label.devFetch :: post) →
        Label.devFetch ∉ mid → Label.setExposure ∉ mid)
    ∧ (∀ pre mid post,
        tr = pre ++ Label.devTrigger :: (mid ++ Label.devTrigger :: post) →
        Label.devFetch ∉ mid → False) := by
  have hInit : SysInv initSys := by
    refine ⟨fun h => ?_, fun h => ?_⟩
    · exfalso; rcases h with h | h <;> simp [initSys] at h
    · exfalso; rcases h with h | h | h | h <;> simp [initSys] at h
  constructor
  · intro pre mid post hdec hnf
    subst hdec
    obtain ⟨s1, hpre, hrest⟩ := run_append_split hrun
    cases hrest with
    | cons hstep hrun2 =>
      cases hstep with
      | devTrigger hc =>
        have hI2 := stepInv (Step.devTrigger _ hc) (runInv hpre hInit)
        obtain ⟨m, hmid, hrest2⟩ := run_append_split hrun2
        exact (run_stay2 hmid hI2 rfl hnf).2
  · intro pre mid post hdec hnf
    subst hdec
    obtain ⟨s1, hpre, hrest⟩ := run_append_split hrun
    cases hrest with
    | cons hstep hrun2 =>
      cases hstep with
      | devTrigger hc =>
        have hI2 := stepInv (Step.devTrigger _ hc) (runInv hpre hInit)
        obtain ⟨m, hmid, hrest2⟩ := run_append_split hrun2
        obtain ⟨hspc, _⟩ := run_stay2 hmid hI2 rfl hnf
        cases hrest2 with
        | cons hstep2 hrun3 =>
          cases hstep2 with
          | devTrigger hc2 => omega

/-- C1 witness: on the concrete run c1Trace, where an armed-flag write does
occur between the trigger and the fetch, the theorem yields that no
setExposure sits there. -/
theorem c1_lock_serializes_witness :
    Run initSys c1Trace c1Final
    ∧ Label.setExposure ∉ [Label.armWrite true] := by
  have hrun : Run initSys c1Trace c1Final := by
    refine Run.cons (Step.armWrite initSys true rfl) ?_
    refine Run.cons (Step.strLock _ rfl rfl rfl) ?_
    refine Run.cons (Step.devTrigger _ rfl) ?_
    refine Run.cons (Step.armWrite _ true rfl) ?_
    refine Run.cons (Step.devFetch _ rfl) ?_
    exact Run.nil _
  exact ⟨hrun, (c1_lock_serializes hrun).1
    [Label.armWrite true, Label.strLock] [Label.armWrite true] [] rfl
    (by decide)⟩

/-- C5 counterexample: the claim covers the IRRCAL query too, but its
vector g_absResponse is always empty in this program while the loop still
runs g_numPixels times, so for the pixel count 3653 the IRRCAL reply loop
does not produce a reply of exactly 3653 comma-terminated tokens: it reads
the vector out of range (modelled none) and produces no reply at all. -/
theorem c5_irrcal_no_tokens :
    ¬∃ r, perPixelReply ([] : List Rat) g_numPixels = some r
      ∧ (commaTokens r).length = g_numPixels := by
  rintro ⟨r, hr, _⟩
  rw [show perPixelReply ([] : List Rat) g_numPixels = none from rfl] at hr
  exact Option.noConfusion hr
